import Mathlib

/-!
Verification of the chompact garbage collector (src/chompact.cpp and
src/chompact2.cpp) against its natural-language specification.

The C++ sources are shallowly embedded: machine words (`uintptr_t`) are `Nat`
with explicit `% 2 ^ 64` where wrap-around matters, the `unsigned` 32-bit
field of `IndirectPointerBase` is `Nat` reduced `% 2 ^ 32`, and the in-page
mark bitmap is the word array `m_marked` as a list of `Nat` words.  Control
flow is translated statement by statement, including the defects present in
the source (the stray `return;` in `Heap::markChildren`, the inverted bitmap
test in `Heap::allocateObject`, the short `memset` in `DataPage::clear`, the
repeated `populate` call in `DynamicWrapper`, and so on), since the claims
are settled against the code as written.
-/

/-- `const size_t PageSize = 4096;` -/
def PageSize : Nat := 4096

/-- `DataPage::ObjectSize = 0x10` -/
def ObjectSize : Nat := 16

/-- `sizeof(Heap*)` on the 64-bit target assumed throughout the source
(`uintptr_t` is 8 bytes). -/
def PtrSize : Nat := 8

/-- `DataPage::Size = ((PageSize - sizeof(Heap*)) * 8) / (ObjectSize * 8 + 1)`:
number of object slots per data page. -/
def DPSize : Nat := ((PageSize - PtrSize) * 8) / (ObjectSize * 8 + 1)

/-- `DataPage::BitsPerWord = sizeof(uintptr_t) * 8` -/
def BitsPerWord : Nat := 64

/-- `DIVU(Size, BitsPerWord)`: the number of `uintptr_t` words in `m_marked`.
(`DIVU(N, D)` is `(N + D - 1) / (D)`.) -/
def NumWords : Nat := (DPSize + BitsPerWord - 1) / BitsPerWord

example : DPSize = 253 := rfl
example : NumWords = 4 := rfl

/-- The mark bitmap of a `DataPage`: the `uintptr_t m_marked[DIVU(Size,
BitsPerWord)]` array, one `Nat` per 64-bit word (least-significant bit first,
little-endian words, as on the x86-64 target the source's `mmap` use implies).
A well-formed page has exactly `NumWords` words (`Bitmap.wf`). -/
structure Bitmap where
  words : List Nat
  deriving DecidableEq

/-- A bitmap that actually has the `uintptr_t[4]` shape of `m_marked`. -/
def Bitmap.wf (b : Bitmap) : Prop := b.words.length = NumWords

/-- `DataPage::mark(i)`: `m_marked[i / BitsPerWord] |= 1 << (i % BitsPerWord)`.
The shift is modelled at the full word width `2 ^ (i % 64)`; the source
shifts an `int` literal `1`, which for shift amounts ≥ 31 is undefined
behaviour in C++ — the word-width shift is the behaviour the surrounding
64-bit word array requires.  (`List.set` leaves the list unchanged when the
word index is out of range; the source would write out of bounds there, and
no in-range call does so.) -/
def Bitmap.mark (b : Bitmap) (i : Nat) : Bitmap :=
  ⟨b.words.set (i / BitsPerWord)
    ((b.words.getD (i / BitsPerWord) 0) ||| (1 <<< (i % BitsPerWord)))⟩

/-- `DataPage::marked(i)`: `m_marked[i / BitsPerWord] & 1 << (i % BitsPerWord)`
converted to `bool`. -/
def Bitmap.marked (b : Bitmap) (i : Nat) : Bool :=
  (b.words.getD (i / BitsPerWord) 0) &&& (1 <<< (i % BitsPerWord)) != 0

/-- `DataPage::clear()`: `memset(m_marked, 0, DIVU(Size, BitsPerWord));
mark(Size - 1);`.  The `memset` length is `DIVU(Size, BitsPerWord) = 4`
BYTES (not `sizeof(m_marked) = 32`), so only the low 32 bits of the first
word are cleared (first four bytes, little-endian); then the last slot's bit
is set. -/
def Bitmap.clear (b : Bitmap) : Bitmap :=
  Bitmap.mark ⟨b.words.set 0 ((b.words.getD 0 0) >>> 32 <<< 32)⟩ (DPSize - 1)

-- Bridge from the C-style `word & 1 << s` test to `Nat.testBit`.
theorem Bitmap.marked_eq_testBit (b : Bitmap) (i : Nat) :
    b.marked i = Nat.testBit (b.words.getD (i / BitsPerWord) 0) (i % BitsPerWord) := by
  unfold Bitmap.marked
  rw [Nat.one_shiftLeft, Nat.and_two_pow]
  cases (b.words.getD (i / BitsPerWord) 0).testBit (i % BitsPerWord)
  · simp
  · simp only [Bool.toNat_true, one_mul]
    rw [bne_iff_ne]
    exact (Nat.pos_pow_of_pos _ (by omega)).ne'

theorem Bitmap.getD_set_ne (l : List Nat) (i j : Nat) (v : Nat) (h : i ≠ j) :
    (l.set i v).getD j 0 = l.getD j 0 := by
  simp only [List.getD_eq_getElem?_getD]
  rw [List.getElem?_set_ne h]

theorem Bitmap.getD_set_self (l : List Nat) (i : Nat) (v : Nat) (h : i < l.length) :
    (l.set i v).getD i 0 = v := by
  simp only [List.getD_eq_getElem?_getD]
  rw [List.getElem?_set_eq_of_lt v h]
  rfl

theorem Bitmap.getD_set_ge (l : List Nat) (i : Nat) (v : Nat) (h : l.length ≤ i) :
    (l.set i v).getD i 0 = l.getD i 0 := by
  have h1 : (l.set i v)[i]? = none := List.getElem?_eq_none (by simpa using h)
  have h2 : l[i]? = none := List.getElem?_eq_none h
  simp only [List.getD_eq_getElem?_getD, h1, h2]

/-- Marking slot `i` makes `marked i` true, provided the word index is in
range (it always is for `i < DPSize` on a well-formed bitmap). -/
theorem Bitmap.marked_mark_self (b : Bitmap) (i : Nat)
    (hwf : b.wf) (hi : i < DPSize) : (b.mark i).marked i = true := by
  have hd : DPSize = 253 := rfl
  have hw : i / BitsPerWord < b.words.length := by
    rw [hwf]
    show i / 64 < 4
    omega
  rw [Bitmap.marked_eq_testBit]
  unfold Bitmap.mark
  simp only
  rw [Bitmap.getD_set_self _ _ _ hw, Nat.one_shiftLeft]
  rw [Nat.testBit_lor]
  simp [Nat.testBit_two_pow_self]

/-- Marking slot `i` does not change the test of any other slot `j ≠ i`:
the (word, bit) pair `(i / 64, i % 64)` is injective in `i`. -/
theorem Bitmap.marked_mark_ne (b : Bitmap) (i j : Nat) (hij : i ≠ j) :
    (b.mark i).marked j = b.marked j := by
  rw [Bitmap.marked_eq_testBit, Bitmap.marked_eq_testBit]
  unfold Bitmap.mark
  simp only
  by_cases hw : i / BitsPerWord = j / BitsPerWord
  · have hb : i % BitsPerWord ≠ j % BitsPerWord := by
      intro hbit
      apply hij
      have h1 := Nat.div_add_mod i BitsPerWord
      have h2 := Nat.div_add_mod j BitsPerWord
      rw [hw, hbit] at h1
      exact h1.symm.trans h2
    rw [hw]
    rcases Nat.lt_or_ge (j / BitsPerWord) b.words.length with hlt | hge
    · rw [Bitmap.getD_set_self _ _ _ hlt, Nat.one_shiftLeft, Nat.testBit_lor,
        Nat.testBit_two_pow_of_ne hb]
      simp
    · rw [Bitmap.getD_set_ge _ _ _ hge]
  · rw [Bitmap.getD_set_ne _ _ _ _ hw]

/-- `IndirectPointerPage::Size = PageSize / sizeof(IndirectPointerBase) -
2 * sizeof(size_t)`: number of handle records per indirection page
(`sizeof(IndirectPointerBase)` is 8 on the 64-bit target). -/
def IPPSize : Nat := PageSize / 8 - 2 * 8

example : IPPSize = 496 := rfl

/-- The `Heap` object together with the memory it manages.

`dataPages` models `std::vector<DataPage*> m_dataPages`: each element is the
page's base address (4096-aligned, from `mmap`) paired with its `m_marked`
bitmap.  `ipPages` models `std::vector<IndirectPointerPage*>
m_indirectPointerPages`: each element is the page's `m_handles` array, one
`u.m_data` value per record.  The worker stack `m_marking` is empty outside
`collect` and nothing in the translated code ever pushes to it (see
`markChildren` below), so it is not part of the state. -/
structure HeapState where
  dataPages : List (Nat × Bitmap)
  nextFreeDataPage : Nat
  nextFreeObject : Nat
  ipPages : List (List Nat)
  deriving DecidableEq

/-- `DataPage::dataPage(p)`: `p & ~(PageSize - 1)`, the base address of the
page containing `p`. -/
def dataPageOf (addr : Nat) : Nat := addr / PageSize * PageSize

/-- Apply `DataPage::mark(idx)` to the page whose base address is `base`.
In the source the masked address IS the page — the model keeps the heap's
pages keyed by their base address.  (If the heap owns no page at `base` the
real code writes through a wild `DataPage*`; the model leaves the list
unchanged there.) -/
def pagesMark : List (Nat × Bitmap) → Nat → Nat → List (Nat × Bitmap)
  | [], _, _ => []
  | pg :: rest, base, idx =>
    if pg.1 = base then (pg.1, pg.2.mark idx) :: pagesMark rest base idx
    else pg :: pagesMark rest base idx

/-- `DataPage::marked(idx)` of the page whose base address is `base` (reads
through a wild pointer if the heap owns no page there; the model answers
`false`). -/
def pagesMarked : List (Nat × Bitmap) → Nat → Nat → Bool
  | [], _, _ => false
  | pg :: rest, base, idx =>
    if pg.1 = base then pg.2.marked idx else pagesMarked rest base idx

/-- `Heap::mark(_p)`: `DataPage::dataPage(_p)->mark(p % DataPage::Size)` —
the page is recovered by masking the address, the bit index is the raw
address modulo `DataPage::Size`. -/
def heapMark (h : HeapState) (addr : Nat) : HeapState :=
  { h with dataPages := pagesMark h.dataPages (dataPageOf addr) (addr % DPSize) }

/-- `Heap::marked(_p)`: `DataPage::dataPage(_p)->marked(p % DataPage::Size)`. -/
def heapMarked (h : HeapState) (addr : Nat) : Bool :=
  pagesMarked h.dataPages (dataPageOf addr) (addr % DPSize)

/-- `m_indirectPointerPages[i]->m_handles[k].u.m_data` (0 when out of range;
the arrays are fixed-size in the source). -/
def entryData (h : HeapState) (i k : Nat) : Nat := (h.ipPages.getD i []).getD k 0

/-- `Heap::markChildren(p)` as written:

```
assert(marked(p));
    return;
/* everything below is dead code */
```

The `return;` after the assertion is unconditional (the indentation is
misleading), so the function never visits any child and never pushes to
`m_marking`.  It is the identity on the heap state. -/
def markChildren (h : HeapState) (_p : Nat) : HeapState := h

/-- `Heap::collect()` as written: for every indirection page index `i` and
every `j` below `IndirectPointerPage::Size`, it reads
`m_indirectPointerPages[i]->m_handles[i].u.m_data` (the inner index `j` is
never used — the entry index is `i`, the page index), marks that address and
calls `markChildren` on it; the worker-stack loop then runs zero iterations
because nothing was pushed; finally both allocation cursors are reset. -/
def collectModel (h : HeapState) : HeapState :=
  { (List.range h.ipPages.length).foldl
      (fun acc i =>
        (List.range IPPSize).foldl
          (fun acc2 _j =>
            markChildren (heapMark acc2 (entryData acc2 i i)) (entryData acc2 i i))
          acc)
      h
    with nextFreeDataPage := 0, nextFreeObject := 0 }

/-- Result of `Heap::allocateObject`: either the raw storage address handed
back by `return object;`, or `undef` for the path that runs off the end of
the function (`collect();` followed by no `return` — the caller receives an
indeterminate value). -/
inductive AllocResult where
  | ok (addr : Nat)
  | undef
  deriving DecidableEq

/-- The inner `do { ... } while (m_nextFreeObject != DataPage::Size)` loop of
`Heap::allocateObject`: starting at `cursor`, return the first index whose
bit is SET (`if (dp->marked(m_nextFreeObject))` — note the test is not
negated in the source), else advance until the cursor reaches
`DataPage::Size`.  `fuel` is `DPSize - cursor`, the number of iterations the
loop body can run before the exit test fires. -/
def pageScan (bm : Bitmap) (cursor : Nat) : Nat → Option Nat
  | 0 => none
  | fuel + 1 =>
    if bm.marked cursor then some cursor
    else if cursor + 1 == DPSize then none
    else pageScan bm (cursor + 1) fuel

/-- The outer `do { ... } while (m_nextFreeDataPage != m_dataPages.size())`
loop of `Heap::allocateObject`.  `dp` was loaded once before the loops
(`DataPage* dp = m_dataPages[m_nextFreeDataPage];`) and is never reloaded
when the page index advances, so every iteration scans the same bitmap `bm`.
Returns the slot together with the value of `m_nextFreeDataPage` at the time
of the hit.  `fuel` is `numPages - pageIdx` at entry. -/
def allocLoop (bm : Bitmap) (cursor pageIdx numPages : Nat) : Nat → Option (Nat × Nat)
  | 0 => none
  | fuel + 1 =>
    match pageScan bm cursor (DPSize - cursor) with
    | some slot => some (slot, pageIdx)
    | none =>
      if pageIdx + 1 == numPages then none
      else allocLoop bm 0 (pageIdx + 1) numPages fuel

/-- `Heap::allocateObject(size)` as written.  On a hit the slot's bit is set
again (`dp->mark(m_nextFreeObject)` — a no-op, the bit was already set), the
storage address `dp->pointer(slot)` on the ORIGINAL page is returned, and
the cursor advances past the slot.  If every outer iteration fails, the
function calls `collect()` and then falls off the end of a non-void
function: the caller gets an indeterminate pointer (`AllocResult.undef`). -/
def allocateObject (h : HeapState) : AllocResult × HeapState :=
  match h.dataPages.get? h.nextFreeDataPage with
  | none => (.undef, h)
  | some (base, bm) =>
    match allocLoop bm h.nextFreeObject h.nextFreeDataPage h.dataPages.length
        (h.dataPages.length - h.nextFreeDataPage) with
    | some (slot, pi) =>
      (.ok (base + ObjectSize * slot),
       { h with dataPages := h.dataPages.set h.nextFreeDataPage (base, bm.mark slot),
                nextFreeObject := slot + 1,
                nextFreeDataPage := pi })
    | none => (.undef, collectModel h)

/-- `Heap::Heap()`: one data page (`mmap` returns zeroed memory, then
`clear()` runs), one indirection page (zeroed).  The data page's base is the
address `mmap` happened to return; 4096 stands in for it. -/
def freshHeap : HeapState :=
  { dataPages := [(4096, Bitmap.clear ⟨[0, 0, 0, 0]⟩)]
    nextFreeDataPage := 0
    nextFreeObject := 0
    ipPages := [List.replicate IPPSize 0] }

/-- Root set of a heap state, as the specification describes it: the target
of every non-null indirection-table entry, across all indirection pages. -/
def rootsOf (h : HeapState) : List Nat := h.ipPages.flatten.filter (fun a => a != 0)

/-- Reachability as the specification states it: an object address is
reachable when it is some indirection-table root entry's target, or the
target of a non-null `Member` edge out of a reachable object.  `edges` is the
object graph formed by the payloads' `Member` fields. -/
inductive Reachable (edges : List (Nat × Nat)) (roots : List Nat) : Nat → Prop
  | root (a : Nat) : a ∈ roots → Reachable edges roots a
  | step (a b : Nat) : Reachable edges roots a → (a, b) ∈ edges → b ≠ 0 →
      Reachable edges roots b

/-- `sizeof(MemberBase<Class>)`: one `void* m_ptr`, 8 bytes. -/
def MemberBaseSize : Nat := 8

/-- The `u.m_data` field of `IndirectPointerBase`.  The union declares
`unsigned m_data` — a 32-bit field on the 64-bit target (the adjacent
bitfield `m_padding : Size - 1` with `Size = sizeof(uintptr_t) * 8` shows a
word-sized record was intended). -/
structure IndirectPointerB where
  m_data : Nat
  deriving DecidableEq

/-- `IndirectPointer<Class>::IndirectPointer(Class* ptr)`:
`u.m_data = reinterpret_cast<uintptr_t>(ptr);` — the store into the 32-bit
`unsigned m_data` keeps only the low 32 bits of the address. -/
def mkIndirectPointer (ptr : Nat) : IndirectPointerB := ⟨ptr % 2 ^ 32⟩

/-- Offset of `Collected<Class>::instance` within the `Collected` object:
`CollectedBase` declares a virtual member function, so the object begins
with an 8-byte vtable pointer and the payload follows it. -/
def instanceOffset : Nat := 8

/-- `&collected->instance` for a `Collected` object whose own address is
`base`. -/
def collectedInstanceAddr (base : Nat) : Nat := base + instanceOffset

/-- `Handle<Class>::Handle(Collected<Class>* ptr)` and
`Handle::operator=`: the indirection record is bound to
`&ptr->instance`. -/
def handleBind (base : Nat) : IndirectPointerB :=
  mkIndirectPointer (collectedInstanceAddr base)

/-- `Handle<Class>::operator*` / `operator->` on a non-empty handle:
`reinterpret_cast<Class*>(m_iptr->u.m_data)` — the address used is the
stored 32-bit value, zero-extended back to a pointer. -/
def handleDerefAddr (ip : IndirectPointerB) : Nat := ip.m_data

/-- `Member<Class, Property>::operator=(Collected<Property>* collected)`:
`MemberBase<Class>::m_ptr = collected;` — the stored value is the address of
the `Collected` wrapper itself. -/
def memberAssign (collectedBase : Nat) : Nat := collectedBase

/-- `Member<Class, Property>::operator*` / `operator->`:
`reinterpret_cast<Property*>(MemberBase<Class>::m_ptr)` — the stored address
is dereferenced directly as a `Property*`. -/
def memberDerefAddr (mptr : Nat) : Nat := mptr

/-- `ObjectInfo<Class>` of src/chompact.cpp: discovery state plus the
recorded `m_children` entries, in write order.  The real `m_children` is a
fixed array of `sizeof(Class) / sizeof(MemberBase<Class>)` words; the model
records every write, so entries at positions `≥` that capacity are the
writes the reserved array cannot hold. -/
structure ObjectInfo where
  m_numChildren : Nat
  m_initializing : Bool
  m_finalized : Bool
  m_children : List Nat
  deriving DecidableEq

/-- The statically reserved capacity of `ObjectInfo<Class>::m_children`:
`sizeof(Class) / sizeof(MemberBase<Class>)`. -/
def childCapacity (sizeofClass : Nat) : Nat := sizeofClass / MemberBaseSize

/-- `ObjectInfo<Class>::append(child)` as written:

```
if (!m_initializing)
    return;
m_children[m_numChildren++] = reinterpret_cast<uintptr_t>(child);
```

No bounds check, assertion, or consistency check of any kind appears in the
function (or anywhere on this path). -/
def ObjectInfo.append (info : ObjectInfo) (childAddr : Nat) : ObjectInfo :=
  if !info.m_initializing then info
  else { info with m_children := info.m_children ++ [childAddr],
                   m_numChildren := info.m_numChildren + 1 }

/-- `ObjectInfo<ClassId>` of src/chompact2.cpp: the `finalized` flag and the
`std::vector<uintptr_t> children`. -/
structure DynObjectInfo where
  finalized : Bool
  children : List Nat
  deriving DecidableEq

/-- `uintptr_t` subtraction, wrapping at `2 ^ 64`. -/
def usub64 (a b : Nat) : Nat := (a % 2 ^ 64 + (2 ^ 64 - b % 2 ^ 64)) % 2 ^ 64

/-- `MemberBase<ClassId>::MemberBase()` of src/chompact2.cpp: skip when the
registry is finalized, otherwise push this member's own address. -/
def dynMemberInit (info : DynObjectInfo) (addr : Nat) : DynObjectInfo :=
  if info.finalized then info
  else { info with children := info.children ++ [addr] }

/-- `ObjectInfo<ClassId>::populate(base)` of src/chompact2.cpp: subtract
`base` from every recorded entry, then set `finalized`. -/
def DynObjectInfo.populate (info : DynObjectInfo) (base : Nat) : DynObjectInfo :=
  { finalized := true, children := info.children.map (fun a => usub64 a base) }

/-- `DynamicWrapper<Class>::DynamicWrapper()`: the `Class::DynImpl` base
subobject is constructed first, which runs `MemberBase` registration for
each `Member` field (at `base + off` for each field offset `off`); then the
constructor body calls
`DynamicObjectInfo<...>::info.populate(reinterpret_cast<uintptr_t>(this))` —
on EVERY construction, not only the first. -/
def dynWrapperNew (info : DynObjectInfo) (base : Nat) (memberOffsets : List Nat) :
    DynObjectInfo :=
  DynObjectInfo.populate
    (memberOffsets.foldl (fun acc off => dynMemberInit acc (base + off)) info) base

-- `heapMark` touches only the data-page bitmaps.
theorem heapMark_ipPages (h : HeapState) (a : Nat) : (heapMark h a).ipPages = h.ipPages := rfl

-- Frame property of a single `Heap::mark` at the list level: testing a
-- (base, index) pair that differs in base or in index is unaffected.
theorem pagesMarked_pagesMark_ne (l : List (Nat × Bitmap)) (b1 i1 b2 i2 : Nat)
    (hne : b1 ≠ b2 ∨ i1 ≠ i2) :
    pagesMarked (pagesMark l b1 i1) b2 i2 = pagesMarked l b2 i2 := by
  induction l with
  | nil => rfl
  | cons pg rest ih =>
    by_cases h1 : pg.1 = b1
    · by_cases h2 : pg.1 = b2
      · have hb : b1 = b2 := h1.symm.trans h2
        have hidx : i1 ≠ i2 := by
          rcases hne with hbne | hidx
          · exact absurd hb hbne
          · exact hidx
        simp [pagesMark, pagesMarked, h1, h2, hb, Bitmap.marked_mark_ne _ _ _ hidx]
      · have hb : ¬b1 = b2 := fun e => h2 (h1.trans e)
        simp [pagesMark, pagesMarked, h1, h2, hb, ih]
    · by_cases h2 : pg.1 = b2
      · have hb : ¬b2 = b1 := fun e => h1 (h2.trans e)
        simp [pagesMark, pagesMarked, h1, h2, hb, ih]
      · simp [pagesMark, pagesMarked, h1, h2, ih]

/-- Frame property of `Heap::mark`: marking address `a` does not change
`Heap::marked` at any address `q` on a different page or with a different
in-page bit index. -/
theorem heapMarked_heapMark_ne (h : HeapState) (a q : Nat)
    (hne : dataPageOf a ≠ dataPageOf q ∨ a % DPSize ≠ q % DPSize) :
    heapMarked (heapMark h a) q = heapMarked h q :=
  pagesMarked_pagesMark_ne h.dataPages _ _ _ _ hne

-- Fold invariant helper.
theorem foldl_preserves {α β : Type} (P : β → Prop) (f : β → α → β) (l : List α)
    (init : β) (h0 : P init) (hstep : ∀ acc x, P acc → P (f acc x)) :
    P (l.foldl f init) := by
  induction l generalizing init with
  | nil => exact h0
  | cons hd tl ih => exact ih _ (hstep _ _ h0)

-- Addresses of objects: a `Collected` object in slot `i` of the page at
-- `base` lives at `base + ObjectSize * i` (`DataPage::pointer(i)` is
-- `&m_data[i * ObjectSize]` and `m_data` is the first member of the page).
theorem dataPageOf_base_add (b r : Nat) (hb : b % PageSize = 0) (hr : r < PageSize) :
    dataPageOf (b + r) = b := by
  obtain ⟨k, hk⟩ := Nat.dvd_of_mod_eq_zero hb
  subst hk
  show (PageSize * k + r) / PageSize * PageSize = PageSize * k
  have hr4 : r < 4096 := hr
  show (4096 * k + r) / 4096 * 4096 = 4096 * k
  omega

-- Distinct slots of one page get distinct bit indices from `Heap::mark`'s
-- `p % DataPage::Size` formula: 16 is invertible modulo 253.
theorem slotIndex_ne (b ip iq : Nat) (hip : ip < DPSize) (hiq : iq < DPSize)
    (hne : ip ≠ iq) :
    (b + ObjectSize * ip) % DPSize ≠ (b + ObjectSize * iq) % DPSize := by
  intro heq
  apply hne
  have h2 : ObjectSize * ip ≡ ObjectSize * iq [MOD DPSize] :=
    Nat.ModEq.add_left_cancel' b heq
  have h3 : ip ≡ iq [MOD DPSize] :=
    Nat.ModEq.cancel_left_of_coprime (by decide) h2
  have h4 : ip % DPSize = iq % DPSize := h3
  rw [Nat.mod_eq_of_lt hip, Nat.mod_eq_of_lt hiq] at h4
  exact h4

/-- C6: for every data page and every slot index `i < DataPage::Size`,
`mark(i)` followed by `marked(i)` returns true, and `mark(i)` never clears
the bit of any other index `j ≠ i` that was previously set. -/
theorem mark_sets_bit_and_preserves_others (b : Bitmap) (i j : Nat)
    (hwf : b.wf) (hi : i < DPSize) (_hj : j < DPSize) (hji : j ≠ i)
    (hjset : b.marked j = true) :
    (b.mark i).marked i = true ∧ (b.mark i).marked j = true := by
  refine ⟨Bitmap.marked_mark_self b i hwf hi, ?_⟩
  rw [Bitmap.marked_mark_ne b i j (fun e => hji e.symm)]
  exact hjset

/-- Witness for C6 at a concrete page: word 0 is `2` (bit of slot 1 set);
marking slot 5 sets slot 5's bit and leaves slot 1's bit set. -/
theorem mark_sets_bit_and_preserves_others_witness :
    (Bitmap.mark ⟨[2, 0, 0, 0]⟩ 5).marked 5 = true ∧
      (Bitmap.mark ⟨[2, 0, 0, 0]⟩ 5).marked 1 = true :=
  mark_sets_bit_and_preserves_others ⟨[2, 0, 0, 0]⟩ 5 1 rfl (by decide)
    (by decide) (by decide) (by decide)

/-- C10: for distinct collected objects `p` (slot `ip` of the page at `bp`)
and `q` (slot `iq` of the page at `bq`) of the same heap, `Heap::mark(p)`
leaves `Heap::marked(q)` unchanged: distinct pages have separate bitmaps,
and within one page the bit index `addr % DataPage::Size` is injective over
the page's slots. -/
theorem heap_mark_frame (h : HeapState) (bp bq ip iq : Nat)
    (hbp : bp % PageSize = 0) (hbq : bq % PageSize = 0)
    (hip : ip < DPSize) (hiq : iq < DPSize)
    (hne : bp ≠ bq ∨ ip ≠ iq) :
    heapMarked (heapMark h (bp + ObjectSize * ip)) (bq + ObjectSize * iq) =
      heapMarked h (bq + ObjectSize * iq) := by
  apply heapMarked_heapMark_ne
  have hrp : ObjectSize * ip < PageSize := by
    have h1 : ip < 253 := hip
    show 16 * ip < 4096
    omega
  have hrq : ObjectSize * iq < PageSize := by
    have h1 : iq < 253 := hiq
    show 16 * iq < 4096
    omega
  have hpp := dataPageOf_base_add bp _ hbp hrp
  have hpq := dataPageOf_base_add bq _ hbq hrq
  rcases hne with hb | hi
  · exact Or.inl (by rw [hpp, hpq]; exact hb)
  · by_cases hbb : bp = bq
    · subst hbb
      exact Or.inr (slotIndex_ne bp ip iq hip hiq hi)
    · exact Or.inl (by rw [hpp, hpq]; exact hbb)

/-- Witness for C10 on the fresh heap: marking slot 0 of the page at 4096
does not change the mark test of slot 1 of the same page. -/
theorem heap_mark_frame_witness :
    heapMarked (heapMark freshHeap (4096 + ObjectSize * 0)) (4096 + ObjectSize * 1) =
      heapMarked freshHeap (4096 + ObjectSize * 1) :=
  heap_mark_frame freshHeap 4096 4096 0 1 (by decide) (by decide) (by decide)
    (by decide) (Or.inr (by decide))

/-- A two-object heap: one data page at base 4096 holding collected object A
(slot 0, address 4096) and collected object B (slot 1, address 4112); one
indirection page whose entries 0 and 1 both hold A's address (so every mark
issued by `collect` lands on a real page). -/
def exHeap : HeapState :=
  { dataPages := [(4096, Bitmap.clear ⟨[0, 0, 0, 0]⟩)]
    nextFreeDataPage := 0
    nextFreeObject := 0
    ipPages := [[4096, 4096] ++ List.replicate (IPPSize - 2) 0] }

/-- The `Member` edges of `exHeap`: object A's reference field points to
object B. -/
def exEdges : List (Nat × Nat) := [(4096, 4112)]

-- Resetting the allocation cursors does not change `Heap::marked`.
theorem heapMarked_set_cursors (h : HeapState) (a b q : Nat) :
    heapMarked { h with nextFreeDataPage := a, nextFreeObject := b } q = heapMarked h q := rfl

/-- `collect()` can only ever mark the addresses `m_handles[i].u.m_data` it
reads from the diagonal entries; any address whose page or bit index differs
from all of them keeps its mark state. -/
theorem collectModel_unmarked (h : HeapState) (q : Nat)
    (hroot : ∀ i, dataPageOf (entryData h i i) ≠ dataPageOf q ∨
      entryData h i i % DPSize ≠ q % DPSize)
    (h0 : heapMarked h q = false) :
    heapMarked (collectModel h) q = false := by
  unfold collectModel
  rw [heapMarked_set_cursors]
  have main := foldl_preserves
    (fun acc : HeapState => acc.ipPages = h.ipPages ∧ heapMarked acc q = false)
    (fun acc i =>
      (List.range IPPSize).foldl
        (fun acc2 _j =>
          markChildren (heapMark acc2 (entryData acc2 i i)) (entryData acc2 i i))
        acc)
    (List.range h.ipPages.length) h ⟨rfl, h0⟩ ?_
  · exact main.2
  · intro acc i hacc
    refine foldl_preserves
      (fun acc2 : HeapState => acc2.ipPages = h.ipPages ∧ heapMarked acc2 q = false)
      (fun acc2 _j =>
        markChildren (heapMark acc2 (entryData acc2 i i)) (entryData acc2 i i))
      (List.range IPPSize) acc hacc ?_
    intro acc2 _j hacc2
    have he : entryData acc2 i i = entryData h i i := by
      unfold entryData
      rw [hacc2.1]
    constructor
    · show (heapMark acc2 (entryData acc2 i i)).ipPages = h.ipPages
      rw [heapMark_ipPages]
      exact hacc2.1
    · show heapMarked (heapMark acc2 (entryData acc2 i i)) q = false
      rw [he, heapMarked_heapMark_ne _ _ _ (hroot i)]
      exact hacc2.2

/-- C1: refuted — object B (address 4112) is reachable from a root entry by
one `Member` edge, yet after `collect()` its mark bit is clear.
`markChildren` returns immediately (the stray `return;` after its
assertion), so no child edge is ever traversed; the root loop also reads
entry `i` of page `i` instead of entry `j`.  The claim's
"marked if reachable" direction fails at B. -/
theorem collect_leaves_reachable_object_unmarked :
    Reachable exEdges (rootsOf exHeap) 4112 ∧
      heapMarked (collectModel exHeap) 4112 = false := by
  constructor
  · refine Reachable.step 4096 4112 (Reachable.root 4096 ?_) (by simp [exEdges]) (by omega)
    have hmem : (4096 : Nat) ∈ exHeap.ipPages.flatten := by
      apply List.mem_flatten.mpr
      refine ⟨[4096, 4096] ++ List.replicate (IPPSize - 2) 0, ?_, ?_⟩
      · show _ ∈ [[4096, 4096] ++ List.replicate (IPPSize - 2) 0]
        exact List.mem_singleton.mpr rfl
      · exact List.mem_append_left _ (by simp)
    exact List.mem_filter.mpr ⟨hmem, by decide⟩
  · apply collectModel_unmarked
    · intro i
      match i with
      | 0 =>
        right
        decide
      | Nat.succ n =>
        left
        have hzero : entryData exHeap (n + 1) (n + 1) = 0 := by
          unfold entryData
          have hlen : exHeap.ipPages.length ≤ n + 1 := by
            show 1 ≤ n + 1
            omega
          rw [List.getD_eq_default _ _ hlen]
          rfl
        rw [hzero]
        decide
    · decide

/-- C2: refuted on the fresh heap — the allocation scan's test is
`if (dp->marked(m_nextFreeObject))`, not its negation, so the first
allocation returns slot 252 (the sentinel slot, the only slot whose bit is
SET after `clear()`), even though slot 0 at the cursor has its bit clear.
The claim says the first slot with a CLEAR bit (slot 0) is returned. -/
theorem allocateObject_returns_sentinel_on_fresh_heap :
    (allocateObject freshHeap).1 = .ok (4096 + ObjectSize * (DPSize - 1)) ∧
      Bitmap.marked (Bitmap.clear ⟨[0, 0, 0, 0]⟩) 0 = false ∧
      Bitmap.marked (Bitmap.clear ⟨[0, 0, 0, 0]⟩) (DPSize - 1) = true := by
  set_option maxRecDepth 10000 in decide

/-- A heap whose single data page has an all-zero bitmap: with the inverted
scan test, no slot is allocatable. -/
def exhaustedHeap : HeapState :=
  { dataPages := [(4096, ⟨[0, 0, 0, 0]⟩)]
    nextFreeDataPage := 0
    nextFreeObject := 0
    ipPages := [List.replicate IPPSize 0] }

/-- C3: refuted — when the scan finds no slot in any page,
`Heap::allocateObject` executes `collect();` and then falls off the end of
the non-void function.  The caller receives an indeterminate value
(`AllocResult.undef`), not an explicit out-of-memory signal. -/
theorem allocateObject_exhausted_returns_undef :
    (allocateObject exhaustedHeap).1 = .undef := by
  set_option maxRecDepth 10000 in decide

/-- C5: refuted — `clear()`'s `memset` length is `DIVU(Size, BitsPerWord)`
= 4 bytes, not `sizeof(m_marked)` = 32 bytes, so only bits 0–31 of the
first word are cleared.  On a page whose slot 32 bit was set, the bit is
still set after `clear()`, though 32 ≤ Size - 2. -/
theorem clear_leaves_stale_bit_set :
    Bitmap.marked ⟨[2 ^ 32, 0, 0, 0]⟩ 32 = true ∧
      (32 : Nat) ≤ DPSize - 2 ∧
      Bitmap.marked (Bitmap.clear ⟨[2 ^ 32, 0, 0, 0]⟩) 32 = true := by
  decide

/-- C4: refuted for the src/chompact2.cpp registry — the first
`DynamicWrapper` construction (base 4096, one `Member` field at offset 8)
records the true offset 8 and finalizes, but the second construction (base
8192) runs `populate` AGAIN, subtracting the new base from the
already-normalized offset and corrupting it. -/
theorem second_construction_corrupts_offsets :
    (dynWrapperNew ⟨false, []⟩ 4096 [8]).children = [8] ∧
      (dynWrapperNew ⟨false, []⟩ 4096 [8]).finalized = true ∧
      (dynWrapperNew (dynWrapperNew ⟨false, []⟩ 4096 [8]) 8192 [8]).children ≠ [8] := by
  decide

/-- C7: refuted — `IndirectPointerBase`'s `u.m_data` is a 32-bit `unsigned`,
so binding a root handle to a collected object at address `2 ^ 32` stores
`(2 ^ 32 + 8) % 2 ^ 32 = 8`, and dereferencing yields address 8, not the
payload at `2 ^ 32 + 8`. -/
theorem handle_deref_truncates_high_address :
    handleDerefAddr (handleBind (2 ^ 32)) = 8 ∧
      handleDerefAddr (handleBind (2 ^ 32)) ≠ collectedInstanceAddr (2 ^ 32) := by
  decide

/-- C8: refuted — assigning a `Member` from a `Collected<Property>*` stores
the wrapper's own address (`m_ptr = collected`), while a `Handle` bound to
the same allocation stores `&collected->instance` = base + 8 (past the
vtable pointer).  Dereferencing the two yields different addresses: the
`Member` dereference aliases the vtable pointer, not the payload. -/
theorem member_deref_differs_from_handle_deref :
    memberDerefAddr (memberAssign 4096) = 4096 ∧
      handleDerefAddr (handleBind 4096) = collectedInstanceAddr 4096 ∧
      memberDerefAddr (memberAssign 4096) ≠ handleDerefAddr (handleBind 4096) := by
  decide

/-- C9: counterexample — for a payload of 8 bytes the reserved capacity is
`sizeof(Class) / sizeof(MemberBase<Class>) = 1`, yet calling `append` on a
registry already holding 1 entry records a second one (index 1, beyond the
reserved array) and returns normally: no consistency check fires. -/
theorem append_records_beyond_capacity :
    childCapacity 8 = 1 ∧
      (ObjectInfo.append ⟨1, true, false, [256]⟩ 264).m_numChildren = 2 ∧
      (ObjectInfo.append ⟨1, true, false, [256]⟩ 264).m_children = [256, 264] := by
  decide

/-- C9 (amended): `ObjectInfo<Class>::append` performs no capacity or
consistency check at all — while `m_initializing` is set it unconditionally
records the slot at index `m_numChildren`, even past the reserved capacity
(an out-of-bounds write in the real array), and returns normally. -/
theorem append_unconditional_while_initializing (info : ObjectInfo) (a : Nat)
    (h : info.m_initializing = true) :
    (info.append a).m_children = info.m_children ++ [a] ∧
      (info.append a).m_numChildren = info.m_numChildren + 1 := by
  unfold ObjectInfo.append
  rw [h]
  exact ⟨rfl, rfl⟩

/-- Witness for the amended C9 at a concrete registry state. -/
theorem append_unconditional_witness :
    ((⟨1, true, false, [256]⟩ : ObjectInfo).m_initializing = true) ∧
      ((ObjectInfo.append ⟨1, true, false, [256]⟩ 264).m_children = [256] ++ [264] ∧
        (ObjectInfo.append ⟨1, true, false, [256]⟩ 264).m_numChildren = 1 + 1) :=
  ⟨rfl, append_unconditional_while_initializing ⟨1, true, false, [256]⟩ 264 rfl⟩
